import Mathlib

/-!
# simple-network-relay: the CONNECT handler of `main.go`

A shallow embedding of `handleRequest` and of the functions it calls
(`writeHeader`, `dialTCP`, `resolveDNS`, `splitHostPort`, `proxyData`,
`flushingWriter.Write`).

* Go strings are Lean `String`s; the only bytes the code looks for are the ASCII
  characters `:`, `[` and `]`, so indexing by character and by byte agree.
* The outside world (name resolver, dialer, the bytes peers send, the results of
  writes) is given by oracles: fields of `ResponseWriter`, `Request`, `Conn` and `Env`.
* Every call the handler makes on an outside object is recorded, in order, as an
  `Event` of a trace.
* The two goroutines of `proxyData` are interleaved by an explicit schedule.
-/

namespace SimpleNetworkRelay

/-! ## Data model -/

abbrev Bytes := List UInt8

/-- Go `error` values the program meets. `EOF`, `ErrShortWrite` and
`errInvalidWrite` are the sentinels of package `io`; every other error is known
by its message. -/
inductive GoError where
  | EOF
  | ErrShortWrite
  | errInvalidWrite
  | msg (s : String)
  deriving DecidableEq, Repr

/-- The text of `err.Error()`. -/
def GoError.Error : GoError → String
  | .EOF => "EOF"
  | .ErrShortWrite => "short write"
  | .errInvalidWrite => "invalid write result"
  | .msg s => s

/-- Go type `proxyStatus` (main.go:20). -/
structure proxyStatus where
  code : Nat
  error : String
  deriving DecidableEq, Repr

/-- Go `http.MethodConnect`. -/
def MethodConnect : String := "CONNECT"

/-- Go `http.StatusOK`. -/
def StatusOK : Nat := 200

/-- Go `http.StatusBadGateway`. -/
def StatusBadGateway : Nat := 502

/-- Go `http.StatusServiceUnavailable`. -/
def StatusServiceUnavailable : Nat := 503

def statusOK : proxyStatus := { code := StatusOK, error := "" }

def statusGoDirect : proxyStatus :=
  { code := StatusServiceUnavailable,
    error := "SimpleNetworkRelay; error=destination_unavailable" }

def statusBlock : proxyStatus :=
  { code := StatusBadGateway,
    error := "SimpleNetworkRelay; error=connection_refused" }

/-! ## `net.SplitHostPort`, `net.JoinHostPort` and `splitHostPort` -/

/-- Go `bytealg.IndexByteString`: position of the first `c`, `none` for -1. -/
def indexByte : List Char → Char → Option Nat
  | [], _ => none
  | x :: xs, c => if x = c then some 0 else (indexByte xs c).map (· + 1)

/-- Go `bytealg.LastIndexByteString`: position of the last `c`, `none` for -1. -/
def lastIndexByte : List Char → Char → Option Nat
  | [], _ => none
  | x :: xs, c =>
    match lastIndexByte xs c with
    | some i => some (i + 1)
    | none => if x = c then some 0 else none

def missingPort : String := "missing port in address"

def tooManyColons : String := "too many colons in address"

/-- The checks of `net.SplitHostPort` that follow the choice of `host`: no `[`
from position `j` on, no `]` from position `k` on; the port is what follows the
last colon, at position `i`. -/
def splitTail (s host : List Char) (i j k : Nat) : Except String (String × String) :=
  if (indexByte (s.drop j) '[').isSome then .error "unexpected '[' in address"
  else if (indexByte (s.drop k) ']').isSome then .error "unexpected ']' in address"
  else .ok (String.mk host, String.mk (s.drop (i + 1)))

/-- Go standard library `net.SplitHostPort`; the error is the `Err` text of the
`*AddrError` it returns. -/
def SplitHostPort (hostport : String) : Except String (String × String) :=
  let s := hostport.data
  match lastIndexByte s ':' with
  | none => .error missingPort
  | some i =>
    if s.head? = some '[' then
      match indexByte s ']' with
      | none => .error "missing ']' in address"
      | some e =>
        if e + 1 = s.length then .error missingPort
        else if e + 1 = i then splitTail s ((s.take e).drop 1) i 1 (e + 1)
        else if s.get? (e + 1) = some ':' then .error tooManyColons
        else .error missingPort
    else
      let host := s.take i
      if (indexByte host ':').isSome then .error tooManyColons
      else splitTail s host i 0 0

/-- Go standard library `net.JoinHostPort`. -/
def JoinHostPort (host port : String) : String :=
  if (indexByte host.data ':').isSome then "[" ++ host ++ "]:" ++ port
  else host ++ ":" ++ port

/-- Go `splitHostPort` (main.go:149). -/
def splitHostPort (authority : String) : String × String :=
  match SplitHostPort authority with
  | .error _ => (authority, "443")
  | .ok (h, p) => (h, p)

/-! ## Headers, requests, connections and the trace -/

/-- An address as `net.IP` holds it: a slice of bytes. -/
abbrev IP := List UInt8

/-- Go `http.Header`: a map from key to the values under it, `[]` for a key that
is absent. -/
abbrev Header := String → List String

/-- Go `http.Header.Get`: the first value under the canonical form of `key`, `""`
when there is none. `canon` is `textproto.CanonicalMIMEHeaderKey`. -/
def Header.Get (canon : String → String) (h : Header) (key : String) : String :=
  match h (canon key) with
  | [] => ""
  | v :: _ => v

/-- Go `http.Header.Add`: appends `value` to the values under the canonical form
of `key`. -/
def Header.Add (canon : String → String) (h : Header) (key value : String) : Header :=
  Function.update h (canon key) (h (canon key) ++ [value])

/-- Go `http.Header.Values`: all values under the canonical form of `key`. -/
def Header.Values (canon : String → String) (h : Header) (key : String) : List String :=
  h (canon key)

/-- One call of `Read` on a stream: the bytes it delivered and its error. -/
structure ReadStep where
  data : Bytes
  err : Option GoError
  deriving DecidableEq, Repr

/-- The two goroutines of `proxyData`: `up` copies the request body to the
outbound connection, `down` copies the outbound connection to the response. -/
inductive Dir where
  | up
  | down
  deriving DecidableEq, Repr

/-- The calls the handler makes on the outside world. -/
inductive Event where
  /-- Call `w.Header().Add(key, value)` -/
  | headerAdd (key value : String)
  /-- Call `w.WriteHeader(code)` -/
  | writeHeader (code : Nat)
  /-- Call `Flush()` of the response writer -/
  | flush
  /-- Call `Write(b)` of the response writer -/
  | write (b : Bytes)
  /-- Call `log.Printf`, with the formatted line -/
  | log (line : String)
  /-- Call `net.DefaultResolver.LookupIPAddr(ctx, host)` -/
  | lookupIPAddr (host : String)
  /-- Call `dial.Dial("tcp", address)`; `ok` tells whether a connection was opened -/
  | dial (address : String) (ok : Bool)
  /-- Call `r.Body.Read` -/
  | bodyRead
  /-- Call `c.Read` -/
  | connRead
  /-- Call `c.Write(b)` -/
  | connWrite (b : Bytes)
  /-- the function given to `eg.Go` for direction `d` returned `err` -/
  | done (d : Dir) (err : Option GoError)
  /-- Call `c.Close()` -/
  | connClose
  /-- Call `r.Body.Close()` -/
  | bodyClose
  deriving DecidableEq, Repr

/-- The `http.ResponseWriter` handed to the handler. `header` is the map behind
`w.Header()`, `isFlusher` tells whether `w.(http.Flusher)` succeeds,
`writeResult k b` is what the call number `k` of `w.Write(b)` returns, and
`writes` counts the calls of `w.Write` made so far. -/
structure ResponseWriter where
  header : Header
  isFlusher : Bool
  writeResult : Nat → Bytes → Int × Option GoError
  writes : Nat

/-- The fields of `*http.Request` the handler uses. `Body` lists what the
successive calls of `r.Body.Read` return; once it is used up the body is at end
of stream. -/
structure Request where
  Method : String
  Proto : String
  Host : String
  RemoteAddr : String
  Header : Header
  Body : List ReadStep
  Close : Bool

/-- An outbound `net.Conn`: what the successive calls of `c.Read` return (end of
stream once used up) and what the call number `k` of `c.Write(b)` returns. -/
structure Conn where
  reads : List ReadStep
  writeResult : Nat → Bytes → Int × Option GoError

/-- The library functions and the network behind the handler. -/
structure Env where
  /-- Go `textproto.CanonicalMIMEHeaderKey` -/
  canon : String → String
  /-- Go `net.ParseIP`; `none` is the nil address -/
  ParseIP : String → Option IP
  /-- Go `net.IP.String` -/
  ipString : IP → String
  /-- Go `net.DefaultResolver.LookupIPAddr` under the 5 s deadline; the `IP` field
  of each address it returns -/
  LookupIPAddr : String → Except GoError (List IP)
  /-- Go `net.Dialer{Timeout: 5s}.Dial(network, address)` -/
  Dial : String → String → Except GoError Conn
  /-- which goroutine of `proxyData` moves next: `true` for `up` -/
  sched : List Bool

/-! ## The functions of `main.go` -/

/-- Go `writeHeader` (main.go:107): the writer afterwards and the calls made. -/
def writeHeader (canon : String → String) (w : ResponseWriter) (s : proxyStatus) :
    ResponseWriter × List Event :=
  let added : ResponseWriter × List Event :=
    if s.error ≠ "" then
      ({ w with header := Header.Add canon w.header "proxy-status" s.error },
        [Event.headerAdd "proxy-status" s.error])
    else (w, [])
  (added.1,
    added.2 ++ [Event.writeHeader s.code] ++ (if w.isFlusher then [Event.flush] else []))

/-- Go `resolveDNS` (main.go:130). -/
def resolveDNS (env : Env) (host : String) : List Event × Except GoError IP :=
  match env.ParseIP host with
  | some ip => ([], .ok ip)
  | none =>
    match env.LookupIPAddr host with
    | .error err => ([Event.lookupIPAddr host], .error err)
    | .ok [] =>
      ([Event.lookupIPAddr host],
        .error (GoError.msg ("no IPs found for host '" ++ host ++ "'")))
    | .ok (ip :: _) => ([Event.lookupIPAddr host], .ok ip)

/-- Go `dialTCP` (main.go:117). -/
def dialTCP (env : Env) (authority : String) : List Event × Except GoError Conn :=
  let hp := splitHostPort authority
  match resolveDNS env hp.1 with
  | (evs, .error err) =>
    (evs, .error (GoError.msg ("failed to resolve host '" ++ hp.1 ++ "': " ++ err.Error)))
  | (evs, .ok ip) =>
    let address := JoinHostPort (env.ipString ip) hp.2
    match env.Dial "tcp" address with
    | .error err => (evs ++ [Event.dial address false], .error err)
    | .ok c => (evs ++ [Event.dial address true], .ok c)

/-- What a `Write` leaves behind: the destination afterwards, the calls made,
and the `(n, err)` it returns. -/
structure WriteOut (σ : Type) where
  dst : σ
  events : List Event
  n : Int
  err : Option GoError

/-- Go `(*flushingWriter).Write` (main.go:181). -/
def flushingWriter.Write (w : ResponseWriter) (b : Bytes) : WriteOut ResponseWriter :=
  let res := w.writeResult w.writes b
  { dst := { w with writes := w.writes + 1 }
    events := Event.write b :: (if w.isFlusher ∧ res.2 = none then [Event.flush] else [])
    n := res.1
    err := res.2 }

/-- Go `c.Write(b)` on the outbound connection; the state is the number of writes
made so far. -/
def Conn.Write (c : Conn) (k : Nat) (b : Bytes) : WriteOut Nat :=
  { dst := k + 1
    events := [Event.connWrite b]
    n := (c.writeResult k b).1
    err := (c.writeResult k b).2 }

/-- What `io.Copy` leaves behind: the destination afterwards, the calls made,
and the error it returns (the byte count is dropped by both callers). -/
structure CopyOut (σ : Type) where
  dst : σ
  events : List Event
  err : Option GoError

/-- The error `io.Copy` ends with after a read that reported `er`. -/
def readError (er : GoError) : Option GoError :=
  if er = GoError.EOF then none else some er

/-- The copy loop of `io.Copy` (`io.copyBuffer`), which `io.Copy(c, r.Body)` and
`io.Copy(fw, c)` end up in: read, and when bytes came write them, stop on a write
error, a short write or a read error. `rd` is the event of one `Read`. -/
def ioCopy {σ : Type} (write : σ → Bytes → WriteOut σ) (rd : Event) :
    σ → List ReadStep → CopyOut σ
  | s, [] => { dst := s, events := [rd], err := none }
  | s, step :: rest =>
    if 0 < step.data.length then
      let o := write s step.data
      let nr : Int := step.data.length
      let bad : Bool := decide (o.n < 0 ∨ nr < o.n)
      let nw : Int := if bad then 0 else o.n
      let ew : Option GoError :=
        if bad ∧ o.err = none then some GoError.errInvalidWrite else o.err
      match ew with
      | some e => { dst := o.dst, events := rd :: o.events, err := some e }
      | none =>
        if nr ≠ nw then
          { dst := o.dst, events := rd :: o.events, err := some GoError.ErrShortWrite }
        else
          match step.err with
          | some er => { dst := o.dst, events := rd :: o.events, err := readError er }
          | none =>
            let next := ioCopy write rd o.dst rest
            { next with events := rd :: o.events ++ next.events }
    else
      match step.err with
      | some er => { dst := s, events := [rd], err := readError er }
      | none =>
        let next := ioCopy write rd s rest
        { next with events := rd :: next.events }

/-- One execution order of two goroutines: the schedule picks, step by step,
which of the two moves; a goroutine that has finished leaves the rest to the
other, and when the schedule is used up the first runs before the second. -/
def interleave : List Bool → List Event → List Event → List Event
  | [], xs, ys => xs ++ ys
  | _ :: _, [], ys => ys
  | _ :: _, xs, [] => xs
  | true :: s, x :: xs, ys => x :: interleave s xs ys
  | false :: s, xs, y :: ys => y :: interleave s xs ys

/-- What `eg.Wait()` returns for a zero `errgroup.Group`: the error of the first
function, in the order they returned, that returned one. -/
def firstError : List Event → Option GoError
  | [] => none
  | Event.done _ (some e) :: _ => some e
  | _ :: rest => firstError rest

/-- The calls of goroutine `up` of `proxyData`: `io.Copy(c, r.Body)`. -/
def copyUp (r : Request) (c : Conn) : CopyOut Nat :=
  ioCopy c.Write Event.bodyRead 0 r.Body

/-- The calls of goroutine `down` of `proxyData`: `io.Copy(fw, c)`. -/
def copyDown (w : ResponseWriter) (c : Conn) : CopyOut ResponseWriter :=
  ioCopy flushingWriter.Write Event.connRead w c.reads

/-- What the two goroutines of `proxyData` do, in the order of the schedule, up
to the return of `eg.Wait()`. -/
def relay (sched : List Bool) (w : ResponseWriter) (r : Request) (c : Conn) : List Event :=
  interleave sched
    ((copyUp r c).events ++ [Event.done Dir.up (copyUp r c).err])
    ((copyDown w c).events ++ [Event.done Dir.down (copyDown w c).err])

/-- Go `proxyData` (main.go:157): the writer afterwards, the calls made and the
error returned. The deferred `c.Close()` runs once `eg.Wait()` has returned. -/
def proxyData (sched : List Bool) (w : ResponseWriter) (r : Request) (c : Conn) :
    ResponseWriter × List Event × Option GoError :=
  ((copyDown w c).dst, relay sched w r c ++ [Event.connClose], firstError (relay sched w r c))

/-- The end of `handleRequest` (main.go:102): the line logged when `proxyData`
returned an error. -/
def tunnelClosedLog : Option GoError → List Event
  | some err => [Event.log ("Tunnel closed: " ++ err.Error)]
  | none => []

/-- The state a call of `handleRequest` leaves behind. -/
structure Outcome where
  w : ResponseWriter
  r : Request
  trace : List Event

/-- Go `handleRequest` (main.go:74). The deferred `r.Body.Close()` is the last
call on every path. -/
def handleRequest (env : Env) (w : ResponseWriter) (r : Request) : Outcome :=
  let r1 := { r with Close := true }
  if r.Method ≠ MethodConnect ∨ r.Proto = "connect-udp" then
    let h := writeHeader env.canon w statusGoDirect
    { w := h.1, r := r1, trace := h.2 ++ [Event.bodyClose] }
  else if Header.Get env.canon r.Header "auth" ≠ "secret" then
    let h := writeHeader env.canon w statusBlock
    { w := h.1, r := r1, trace := h.2 ++ [Event.bodyClose] }
  else
    let l0 := [Event.log ("CONNECT request from '" ++ r.RemoteAddr ++ "' to '" ++ r.Host ++ "'")]
    match dialTCP env r.Host with
    | (evs, .error err) =>
      let l1 := [Event.log ("Failed to connect to '" ++ r.Host ++ "': " ++ err.Error)]
      let h := writeHeader env.canon w statusGoDirect
      { w := h.1, r := r1, trace := l0 ++ evs ++ l1 ++ h.2 ++ [Event.bodyClose] }
    | (evs, .ok c) =>
      let h := writeHeader env.canon w statusOK
      let p := proxyData env.sched h.1 r1 c
      { w := p.1, r := r1
        trace := l0 ++ evs ++ h.2 ++ p.2.1 ++ tunnelClosedLog p.2.2 ++ [Event.bodyClose] }

/-! ## Reading a trace -/

/-- The code of a `WriteHeader` call. -/
def Event.code? : Event → Option Nat
  | Event.writeHeader c => some c
  | _ => none

/-- The line of a `log.Printf` call. -/
def Event.line? : Event → Option String
  | Event.log l => some l
  | _ => none

/-- The codes given to `WriteHeader`, in order. -/
def statusCodes (t : List Event) : List Nat := t.filterMap Event.code?

/-- The lines given to `log.Printf`, in order. -/
def logLines (t : List Event) : List String := t.filterMap Event.line?

/-- The calls on the response writer: what the client can observe. -/
def Event.onResponse : Event → Bool
  | Event.headerAdd _ _ => true
  | Event.writeHeader _ => true
  | Event.flush => true
  | Event.write _ => true
  | _ => false

/-- The calls that reach for the network: a name lookup or a dial. -/
def Event.outbound : Event → Bool
  | Event.lookupIPAddr _ => true
  | Event.dial _ _ => true
  | _ => false

/-- The calls that use an outbound connection: an opened dial, a read, a write
or the close. -/
def Event.onConn : Event → Bool
  | Event.dial _ true => true
  | Event.connRead => true
  | Event.connWrite _ => true
  | Event.connClose => true
  | _ => false

/-- The calls that move relayed bytes: a write to the response or to the
outbound connection. -/
def Event.relays : Event → Bool
  | Event.write _ => true
  | Event.connWrite _ => true
  | _ => false

/-- The calls made by goroutine `d` of `proxyData`. -/
def Event.ofDir : Dir → Event → Bool
  | Dir.up, Event.bodyRead => true
  | Dir.up, Event.connWrite _ => true
  | Dir.up, Event.done Dir.up _ => true
  | Dir.down, Event.connRead => true
  | Dir.down, Event.write _ => true
  | Dir.down, Event.flush => true
  | Dir.down, Event.done Dir.down _ => true
  | _, _ => false

/-! ## Concrete inputs -/

/-- The canonical form `textproto.CanonicalMIMEHeaderKey` gives a key made of
letters, digits and hyphens: a capital at the start and after each hyphen, small
letters elsewhere. -/
def canonicalChars : Bool → List Char → List Char
  | _, [] => []
  | upper, c :: cs =>
    (if upper then c.toUpper else c.toLower) :: canonicalChars (c = '-') cs

def canonicalKey (key : String) : String := String.mk (canonicalChars true key.data)

/-- The bytes of `127.0.0.1` as `net.ParseIP` returns them. -/
def loopback : IP := [0, 0, 0, 0, 0, 0, 0, 0, 0, 0, 255, 255, 127, 0, 0, 1]

/-- A destination that answers `pong` and then ends the stream, and accepts
every write in full. -/
def sampleConn : Conn :=
  { reads := [{ data := [112, 111, 110, 103], err := none }, { data := [], err := some GoError.EOF }]
    writeResult := fun _ b => ((b.length : Int), none) }

/-- A network where `127.0.0.1` is a literal address, `example.com` resolves to
one address, `empty.example` resolves to none, every other name is unknown, and
only `127.0.0.1:8080` and `93.184.216.34:443` accept connections. -/
def sampleEnv : Env :=
  { canon := canonicalKey
    ParseIP := fun host => if host = "127.0.0.1" then some loopback else none
    ipString := fun ip => if ip = loopback then "127.0.0.1" else "93.184.216.34"
    LookupIPAddr := fun host =>
      if host = "example.com" then .ok [[93, 184, 216, 34]]
      else if host = "empty.example" then .ok []
      else .error (GoError.msg ("lookup " ++ host ++ ": no such host"))
    Dial := fun _ address =>
      if address = "127.0.0.1:8080" ∨ address = "93.184.216.34:443" then .ok sampleConn
      else .error (GoError.msg ("dial tcp " ++ address ++ ": connect: connection refused"))
    sched := [true, false, false, true] }

/-- A fresh response writer with the flush capability whose writes succeed. -/
def sampleWriter : ResponseWriter :=
  { header := fun _ => []
    isFlusher := true
    writeResult := fun _ b => ((b.length : Int), none)
    writes := 0 }

/-- A request with the given method, protocol marker, authority and `auth`
value, whose body sends `ping` and then ends. -/
def sampleRequest (method proto host auth : String) : Request :=
  { Method := method
    Proto := proto
    Host := host
    RemoteAddr := "192.0.2.7:50000"
    Header := Function.update (fun _ => []) "Auth" [auth]
    Body := [{ data := [112, 105, 110, 103], err := none }, { data := [], err := some GoError.EOF }]
    Close := false }

/-! ## Notions used in the statements -/

/-- The calls goroutine `up` makes, its return included. -/
def upRun (r : Request) (c : Conn) : List Event :=
  (copyUp r c).events ++ [Event.done Dir.up (copyUp r c).err]

/-- The calls goroutine `down` makes, its return included. -/
def downRun (w : ResponseWriter) (c : Conn) : List Event :=
  (copyDown w c).events ++ [Event.done Dir.down (copyDown w c).err]

/-- The line `handleRequest` logs once the secret check has passed. -/
def connectLine (r : Request) : String :=
  "CONNECT request from '" ++ r.RemoteAddr ++ "' to '" ++ r.Host ++ "'"

/-- The calls of `handleRequest` up to and including the status 200. -/
def establishedHead (w : ResponseWriter) (r : Request) (evs : List Event) : List Event :=
  [Event.log (connectLine r)] ++ evs ++
    ([Event.writeHeader 200] ++ (if w.isFlusher then [Event.flush] else []))

/-- The three ways `dialTCP` fails: the lookup reports an error, the lookup
returns no address, or the dial of the resolved address reports an error. -/
def dialFails (env : Env) (authority : String) : Prop :=
  (env.ParseIP (splitHostPort authority).1 = none ∧
    ∃ e, env.LookupIPAddr (splitHostPort authority).1 = .error e) ∨
  (env.ParseIP (splitHostPort authority).1 = none ∧
    env.LookupIPAddr (splitHostPort authority).1 = .ok []) ∨
  (∃ ip e, (resolveDNS env (splitHostPort authority).1).2 = .ok ip ∧
    env.Dial "tcp" (JoinHostPort (env.ipString ip) (splitHostPort authority).2) = .error e)

/-- The request is turned away by the method check or by the secret check. -/
def rejected (env : Env) (r : Request) : Prop :=
  r.Method ≠ MethodConnect ∨ r.Proto = "connect-udp" ∨
    Header.Get env.canon r.Header "auth" ≠ "secret"

/-- A writer with the flush capability whose writes fail. -/
def brokenWriter : ResponseWriter :=
  { header := fun _ => []
    isFlusher := true
    writeResult := fun _ _ => (0, some (GoError.msg "stream closed"))
    writes := 0 }

/-! ## The four paths of `handleRequest` -/

theorem writeHeader_goDirect (canon : String → String) (w : ResponseWriter) :
    writeHeader canon w statusGoDirect =
      ({ w with header := Header.Add canon w.header "proxy-status" statusGoDirect.error },
        [Event.headerAdd "proxy-status" statusGoDirect.error, Event.writeHeader 503] ++
          (if w.isFlusher then [Event.flush] else [])) := by
  have h : statusGoDirect.error ≠ "" := by decide
  simp [writeHeader, h]
  rfl

theorem writeHeader_block (canon : String → String) (w : ResponseWriter) :
    writeHeader canon w statusBlock =
      ({ w with header := Header.Add canon w.header "proxy-status" statusBlock.error },
        [Event.headerAdd "proxy-status" statusBlock.error, Event.writeHeader 502] ++
          (if w.isFlusher then [Event.flush] else [])) := by
  have h : statusBlock.error ≠ "" := by decide
  simp [writeHeader, h]
  rfl

theorem writeHeader_ok (canon : String → String) (w : ResponseWriter) :
    writeHeader canon w statusOK =
      (w, [Event.writeHeader 200] ++ (if w.isFlusher then [Event.flush] else [])) := by
  have h : statusOK.error = "" := by decide
  simp [writeHeader, h]
  rfl

theorem handleRequest_unsupported (env : Env) (w : ResponseWriter) (r : Request)
    (hreq : r.Method ≠ MethodConnect ∨ r.Proto = "connect-udp") :
    handleRequest env w r =
      { w := (writeHeader env.canon w statusGoDirect).1
        r := { r with Close := true }
        trace := (writeHeader env.canon w statusGoDirect).2 ++ [Event.bodyClose] } := by
  unfold handleRequest
  simp only [if_pos hreq]

theorem handleRequest_blocked (env : Env) (w : ResponseWriter) (r : Request)
    (hm : r.Method = MethodConnect) (hp : r.Proto ≠ "connect-udp")
    (ha : Header.Get env.canon r.Header "auth" ≠ "secret") :
    handleRequest env w r =
      { w := (writeHeader env.canon w statusBlock).1
        r := { r with Close := true }
        trace := (writeHeader env.canon w statusBlock).2 ++ [Event.bodyClose] } := by
  have hreq : ¬ (r.Method ≠ MethodConnect ∨ r.Proto = "connect-udp") := by
    simp [hm, hp]
  unfold handleRequest
  simp only [if_neg hreq, if_pos ha]

theorem handleRequest_dialFailed (env : Env) (w : ResponseWriter) (r : Request)
    (hm : r.Method = MethodConnect) (hp : r.Proto ≠ "connect-udp")
    (ha : Header.Get env.canon r.Header "auth" = "secret")
    (evs : List Event) (err : GoError) (hd : dialTCP env r.Host = (evs, .error err)) :
    handleRequest env w r =
      { w := (writeHeader env.canon w statusGoDirect).1
        r := { r with Close := true }
        trace :=
          [Event.log ("CONNECT request from '" ++ r.RemoteAddr ++ "' to '" ++ r.Host ++ "'")] ++
            evs ++ [Event.log ("Failed to connect to '" ++ r.Host ++ "': " ++ err.Error)] ++
            (writeHeader env.canon w statusGoDirect).2 ++ [Event.bodyClose] } := by
  have hreq : ¬ (r.Method ≠ MethodConnect ∨ r.Proto = "connect-udp") := by
    simp [hm, hp]
  have ha2 : ¬ (Header.Get env.canon r.Header "auth" ≠ "secret") := by simp [ha]
  unfold handleRequest
  simp only [if_neg hreq, if_neg ha2, hd]

theorem handleRequest_established (env : Env) (w : ResponseWriter) (r : Request)
    (hm : r.Method = MethodConnect) (hp : r.Proto ≠ "connect-udp")
    (ha : Header.Get env.canon r.Header "auth" = "secret")
    (evs : List Event) (c : Conn) (hd : dialTCP env r.Host = (evs, .ok c)) :
    handleRequest env w r =
      { w := (proxyData env.sched w { r with Close := true } c).1
        r := { r with Close := true }
        trace :=
          [Event.log ("CONNECT request from '" ++ r.RemoteAddr ++ "' to '" ++ r.Host ++ "'")] ++
            evs ++ ([Event.writeHeader 200] ++ (if w.isFlusher then [Event.flush] else [])) ++
            (proxyData env.sched w { r with Close := true } c).2.1 ++
            tunnelClosedLog (proxyData env.sched w { r with Close := true } c).2.2 ++
            [Event.bodyClose] } := by
  have hreq : ¬ (r.Method ≠ MethodConnect ∨ r.Proto = "connect-udp") := by
    simp [hm, hp]
  have ha2 : ¬ (Header.Get env.canon r.Header "auth" ≠ "secret") := by simp [ha]
  unfold handleRequest
  simp only [if_neg hreq, if_neg ha2, hd, writeHeader_ok]

/-! ## Events of the parts of a trace -/

theorem filterMap_none {α β : Type} (f : α → Option β) (l : List α)
    (h : ∀ e ∈ l, f e = none) : l.filterMap f = [] := by
  induction l with
  | nil => rfl
  | cons x xs ih =>
    have hx : f x = none := h x (List.mem_cons_self x xs)
    have hxs : ∀ e ∈ xs, f e = none := fun e he => h e (List.mem_cons_of_mem x he)
    simp [List.filterMap_cons, hx, ih hxs]

theorem mem_interleave (e : Event) :
    ∀ (s : List Bool) (xs ys : List Event), e ∈ interleave s xs ys ↔ e ∈ xs ∨ e ∈ ys
  | [], xs, ys => by simp [interleave]
  | _ :: _, [], ys => by simp [interleave]
  | _ :: _, x :: xs, [] => by simp [interleave]
  | true :: s, x :: xs, y :: ys => by
    simp [interleave, mem_interleave e s xs (y :: ys), or_assoc]
  | false :: s, x :: xs, y :: ys => by
    simp [interleave, mem_interleave e s (x :: xs) ys]
    tauto

theorem filter_interleave_left (p : Event → Bool) :
    ∀ (s : List Bool) (xs ys : List Event),
      (∀ e ∈ xs, p e = true) → (∀ e ∈ ys, p e = false) →
      (interleave s xs ys).filter p = xs
  | [], xs, ys => by
    intro hx hy
    have h1 : xs.filter p = xs := List.filter_eq_self.mpr hx
    have h2 : ys.filter p = [] := List.filter_eq_nil_iff.mpr (by simpa using hy)
    simp [interleave, h1, h2]
  | _ :: _, [], ys => by
    intro _ hy
    have h2 : ys.filter p = [] := List.filter_eq_nil_iff.mpr (by simpa using hy)
    simp [interleave, h2]
  | _ :: _, x :: xs, [] => by
    intro hx _
    simpa [interleave] using List.filter_eq_self.mpr hx
  | true :: s, x :: xs, y :: ys => by
    intro hx hy
    have hpx : p x = true := hx x (List.mem_cons_self x xs)
    have hxs : ∀ e ∈ xs, p e = true := fun e he => hx e (List.mem_cons_of_mem x he)
    simp [interleave, List.filter_cons, hpx, filter_interleave_left p s xs (y :: ys) hxs hy]
  | false :: s, x :: xs, y :: ys => by
    intro hx hy
    have hpy : p y = false := hy y (List.mem_cons_self y ys)
    have hys : ∀ e ∈ ys, p e = false := fun e he => hy e (List.mem_cons_of_mem y he)
    simp [interleave, List.filter_cons, hpy, filter_interleave_left p s (x :: xs) ys hx hys]

theorem filter_interleave_right (p : Event → Bool) :
    ∀ (s : List Bool) (xs ys : List Event),
      (∀ e ∈ xs, p e = false) → (∀ e ∈ ys, p e = true) →
      (interleave s xs ys).filter p = ys
  | [], xs, ys => by
    intro hx hy
    have h1 : ys.filter p = ys := List.filter_eq_self.mpr hy
    have h2 : xs.filter p = [] := List.filter_eq_nil_iff.mpr (by simpa using hx)
    simp [interleave, h1, h2]
  | _ :: _, [], ys => by
    intro _ hy
    simpa [interleave] using List.filter_eq_self.mpr hy
  | _ :: _, x :: xs, [] => by
    intro hx _
    have h2 : (x :: xs).filter p = [] := List.filter_eq_nil_iff.mpr (by simpa using hx)
    simpa [interleave] using h2
  | true :: s, x :: xs, y :: ys => by
    intro hx hy
    have hpx : p x = false := hx x (List.mem_cons_self x xs)
    have hxs : ∀ e ∈ xs, p e = false := fun e he => hx e (List.mem_cons_of_mem x he)
    simp [interleave, List.filter_cons, hpx, filter_interleave_right p s xs (y :: ys) hxs hy]
  | false :: s, x :: xs, y :: ys => by
    intro hx hy
    have hpy : p y = true := hy y (List.mem_cons_self y ys)
    have hys : ∀ e ∈ ys, p e = true := fun e he => hy e (List.mem_cons_of_mem y he)
    simp [interleave, List.filter_cons, hpy, filter_interleave_right p s (x :: xs) ys hx hys]

theorem ioCopy_events {σ : Type} (P : Event → Prop) (write : σ → Bytes → WriteOut σ)
    (rd : Event) (hrd : P rd) (hw : ∀ s b, ∀ e ∈ (write s b).events, P e) :
    ∀ (steps : List ReadStep) (s : σ), ∀ e ∈ (ioCopy write rd s steps).events, P e := by
  intro steps
  induction steps with
  | nil =>
    intro s e he
    simp [ioCopy] at he
    exact he ▸ hrd
  | cons step rest ih =>
    intro s e he
    simp only [ioCopy] at he
    repeat' split at he
    all_goals simp only [List.mem_cons, List.mem_append, List.mem_singleton, List.not_mem_nil,
      or_false, or_assoc] at he
    all_goals first
      | exact he ▸ hrd
      | (rcases he with rfl | he | he
         · exact hrd
         · exact hw _ _ e he
         · exact ih _ e he)
      | (rcases he with rfl | he
         · exact hrd
         · first | exact hw _ _ e he | exact ih _ e he)

theorem ioCopy_dst {σ : Type} (Q : σ → Prop) (write : σ → Bytes → WriteOut σ) (rd : Event)
    (hw : ∀ s b, Q s → Q (write s b).dst) :
    ∀ (steps : List ReadStep) (s : σ), Q s → Q (ioCopy write rd s steps).dst := by
  intro steps
  induction steps with
  | nil =>
    intro s hs
    simpa [ioCopy] using hs
  | cons step rest ih =>
    intro s hs
    simp only [ioCopy]
    repeat' split
    all_goals first
      | exact hs
      | exact hw _ _ hs
      | exact ih _ hs
      | exact ih _ (hw _ _ hs)

theorem copyUp_events (r : Request) (c : Conn) :
    ∀ e ∈ (copyUp r c).events, e.ofDir Dir.up = true := by
  apply ioCopy_events (fun e => e.ofDir Dir.up = true)
  · rfl
  · intro s b e he
    simp [Conn.Write] at he
    subst he
    rfl

theorem copyDown_events (w : ResponseWriter) (c : Conn) :
    ∀ e ∈ (copyDown w c).events, e.ofDir Dir.down = true := by
  apply ioCopy_events (fun e => e.ofDir Dir.down = true)
  · rfl
  · intro s b e he
    simp only [flushingWriter.Write, List.mem_cons] at he
    rcases he with rfl | he
    · rfl
    · split at he
      · simp at he
        subst he
        rfl
      · simp at he

theorem copyDown_header (w : ResponseWriter) (c : Conn) :
    (copyDown w c).dst.header = w.header ∧ (copyDown w c).dst.isFlusher = w.isFlusher := by
  refine ioCopy_dst (fun s => s.header = w.header ∧ s.isFlusher = w.isFlusher)
    flushingWriter.Write Event.connRead ?_ c.reads w ⟨rfl, rfl⟩
  intro s b hs
  simpa [flushingWriter.Write] using hs

theorem ofDir_up_not_down (e : Event) (h : e.ofDir Dir.up = true) :
    e.ofDir Dir.down = false := by
  cases e with
  | done d err => cases d <;> simp_all [Event.ofDir]
  | _ => simp_all [Event.ofDir]

theorem ofDir_down_not_up (e : Event) (h : e.ofDir Dir.down = true) :
    e.ofDir Dir.up = false := by
  cases e with
  | done d err => cases d <;> simp_all [Event.ofDir]
  | _ => simp_all [Event.ofDir]

theorem upRun_events (r : Request) (c : Conn) :
    ∀ e ∈ upRun r c, e.ofDir Dir.up = true := by
  intro e he
  simp only [upRun, List.mem_append, List.mem_singleton] at he
  rcases he with he | rfl
  · exact copyUp_events r c e he
  · rfl

theorem downRun_events (w : ResponseWriter) (c : Conn) :
    ∀ e ∈ downRun w c, e.ofDir Dir.down = true := by
  intro e he
  simp only [downRun, List.mem_append, List.mem_singleton] at he
  rcases he with he | rfl
  · exact copyDown_events w c e he
  · rfl

theorem relay_eq (sched : List Bool) (w : ResponseWriter) (r : Request) (c : Conn) :
    relay sched w r c = interleave sched (upRun r c) (downRun w c) := rfl

theorem relay_mem (sched : List Bool) (w : ResponseWriter) (r : Request) (c : Conn)
    (e : Event) (he : e ∈ relay sched w r c) :
    e.ofDir Dir.up = true ∨ e.ofDir Dir.down = true := by
  rw [relay_eq, mem_interleave] at he
  rcases he with he | he
  · exact Or.inl (upRun_events r c e he)
  · exact Or.inr (downRun_events w c e he)

theorem ofDir_facts (e : Event) (h : e.ofDir Dir.up = true ∨ e.ofDir Dir.down = true) :
    e.code? = none ∧ e.line? = none ∧ e.outbound = false ∧ e ≠ Event.connClose ∧
      (∀ k v, e ≠ Event.headerAdd k v) := by
  cases e <;> simp [Event.ofDir, Event.code?, Event.line?, Event.outbound] at h ⊢

theorem dialTCP_events (env : Env) (a : String) :
    ∀ e ∈ (dialTCP env a).1, e.outbound = true := by
  intro e he
  simp only [dialTCP, resolveDNS] at he
  repeat' split at he
  all_goals simp_all [Event.outbound]
  all_goals aesop

theorem outbound_facts (e : Event) (h : e.outbound = true) :
    e.code? = none ∧ e.line? = none ∧ e.onResponse = false ∧ e.relays = false ∧
      (∀ b, e ≠ Event.write b) ∧ (∀ k v, e ≠ Event.headerAdd k v) := by
  cases e <;> simp [Event.outbound, Event.code?, Event.line?, Event.onResponse, Event.relays] at h ⊢

theorem statusCodes_append (a b : List Event) :
    statusCodes (a ++ b) = statusCodes a ++ statusCodes b := by
  simp [statusCodes, List.filterMap_append]

theorem logLines_append (a b : List Event) :
    logLines (a ++ b) = logLines a ++ logLines b := by
  simp [logLines, List.filterMap_append]

theorem statusCodes_dialTCP (env : Env) (a : String) : statusCodes (dialTCP env a).1 = [] :=
  filterMap_none _ _ fun e he => (outbound_facts e (dialTCP_events env a e he)).1

theorem logLines_dialTCP (env : Env) (a : String) : logLines (dialTCP env a).1 = [] :=
  filterMap_none _ _ fun e he => (outbound_facts e (dialTCP_events env a e he)).2.1

theorem statusCodes_relay (sched : List Bool) (w : ResponseWriter) (r : Request) (c : Conn) :
    statusCodes (relay sched w r c) = [] :=
  filterMap_none _ _ fun e he => (ofDir_facts e (relay_mem sched w r c e he)).1

theorem logLines_relay (sched : List Bool) (w : ResponseWriter) (r : Request) (c : Conn) :
    logLines (relay sched w r c) = [] :=
  filterMap_none _ _ fun e he => (ofDir_facts e (relay_mem sched w r c e he)).2.1

theorem statusCodes_flush (b : Bool) :
    statusCodes (if b then [Event.flush] else []) = [] := by
  cases b <;> rfl

theorem header_add_values (canon : String → String) (h : Header) (key value : String) :
    Header.Values canon (Header.Add canon h key value) key =
      Header.Values canon h key ++ [value] := by
  simp [Header.Values, Header.Add]

/-! ## Claims -/

/-- C1: a request whose method is not CONNECT, or whose protocol marker is
`connect-udp`, is answered with code 503 and with `proxy-status` set to exactly
`SimpleNetworkRelay; error=destination_unavailable` on a writer that carried no
such header before, whatever its `auth` header and its authority: the calls on
the writer are the header, the code and the flush, then the body is closed. -/
theorem handleRequest_unsupported_goDirect (env : Env) (w : ResponseWriter) (r : Request)
    (hreq : r.Method ≠ MethodConnect ∨ r.Proto = "connect-udp")
    (hfresh : Header.Values env.canon w.header "proxy-status" = []) :
    statusCodes (handleRequest env w r).trace = [503] ∧
    Header.Values env.canon (handleRequest env w r).w.header "proxy-status" =
      ["SimpleNetworkRelay; error=destination_unavailable"] ∧
    (handleRequest env w r).trace =
      [Event.headerAdd "proxy-status" "SimpleNetworkRelay; error=destination_unavailable",
        Event.writeHeader 503] ++ (if w.isFlusher then [Event.flush] else []) ++
        [Event.bodyClose] := by
  rw [handleRequest_unsupported env w r hreq, writeHeader_goDirect]
  refine ⟨?_, ?_, rfl⟩
  · cases w.isFlusher <;> rfl
  · simp only [header_add_values, hfresh]
    rfl

theorem handleRequest_unsupported_goDirect_witness :
    (sampleRequest "GET" "HTTP/3.0" "127.0.0.1:80" "secret").Method ≠ MethodConnect ∧
    statusCodes (handleRequest sampleEnv sampleWriter
      (sampleRequest "GET" "HTTP/3.0" "127.0.0.1:80" "secret")).trace = [503] :=
  ⟨by decide,
    (handleRequest_unsupported_goDirect sampleEnv sampleWriter
      (sampleRequest "GET" "HTTP/3.0" "127.0.0.1:80" "secret")
      (Or.inl (by decide)) (by decide)).1⟩

/-- C2, as stated, fails: a CONNECT request with protocol marker `connect-udp`
and a wrong `auth` value is answered with 503 and `destination_unavailable`, not
with 502. -/
theorem connectUdp_wrongAuth_not_blocked :
    (sampleRequest "CONNECT" "connect-udp" "127.0.0.1:80" "wrong").Method = MethodConnect ∧
    Header.Get sampleEnv.canon
      (sampleRequest "CONNECT" "connect-udp" "127.0.0.1:80" "wrong").Header "auth" ≠ "secret" ∧
    statusCodes (handleRequest sampleEnv sampleWriter
      (sampleRequest "CONNECT" "connect-udp" "127.0.0.1:80" "wrong")).trace = [503] ∧
    Header.Values sampleEnv.canon (handleRequest sampleEnv sampleWriter
      (sampleRequest "CONNECT" "connect-udp" "127.0.0.1:80" "wrong")).w.header "proxy-status" =
      ["SimpleNetworkRelay; error=destination_unavailable"] := by
  decide

/-- C2, amended: a CONNECT request whose protocol marker is not `connect-udp`
and whose `auth` header value (the empty string when the header is missing) is
not exactly `secret` is answered with code 502 and with `proxy-status` set to
exactly `SimpleNetworkRelay; error=connection_refused`. -/
theorem handleRequest_badSecret_blocked (env : Env) (w : ResponseWriter) (r : Request)
    (hm : r.Method = MethodConnect) (hp : r.Proto ≠ "connect-udp")
    (ha : Header.Get env.canon r.Header "auth" ≠ "secret")
    (hfresh : Header.Values env.canon w.header "proxy-status" = []) :
    statusCodes (handleRequest env w r).trace = [502] ∧
    Header.Values env.canon (handleRequest env w r).w.header "proxy-status" =
      ["SimpleNetworkRelay; error=connection_refused"] ∧
    (handleRequest env w r).trace =
      [Event.headerAdd "proxy-status" "SimpleNetworkRelay; error=connection_refused",
        Event.writeHeader 502] ++ (if w.isFlusher then [Event.flush] else []) ++
        [Event.bodyClose] := by
  rw [handleRequest_blocked env w r hm hp ha, writeHeader_block]
  refine ⟨?_, ?_, rfl⟩
  · cases w.isFlusher <;> rfl
  · simp only [header_add_values, hfresh]
    rfl

theorem handleRequest_badSecret_blocked_witness :
    Header.Get sampleEnv.canon
      (sampleRequest "CONNECT" "HTTP/3.0" "127.0.0.1:80" "wrong_secret").Header "auth" ≠ "secret" ∧
    statusCodes (handleRequest sampleEnv sampleWriter
      (sampleRequest "CONNECT" "HTTP/3.0" "127.0.0.1:80" "wrong_secret")).trace = [502] :=
  ⟨by decide,
    (handleRequest_badSecret_blocked sampleEnv sampleWriter
      (sampleRequest "CONNECT" "HTTP/3.0" "127.0.0.1:80" "wrong_secret")
      (by decide) (by decide) (by decide) (by decide)).1⟩

theorem dialTCP_error_onConn (env : Env) (a : String) (evs : List Event) (err : GoError)
    (hd : dialTCP env a = (evs, .error err)) :
    ∀ e ∈ evs, e.onConn = false ∧ e.outbound = true := by
  intro e he
  refine ⟨?_, ?_⟩
  · simp only [dialTCP, resolveDNS] at hd
    repeat' split at hd
    all_goals simp_all [Event.onConn]
    all_goals aesop
  · have h := dialTCP_events env a e
    rw [hd] at h
    exact h he

theorem dialTCP_of_dialFails (env : Env) (a : String) (h : dialFails env a) :
    ∃ evs err, dialTCP env a = (evs, .error err) := by
  rcases h with ⟨hp, e, hl⟩ | ⟨hp, hl⟩ | ⟨ip, e, hr, hd⟩
  · simp [dialTCP, resolveDNS, hp, hl]
  · simp [dialTCP, resolveDNS, hp, hl]
  · rcases hres : resolveDNS env (splitHostPort a).1 with ⟨evs, res⟩
    rw [hres] at hr
    simp only at hr
    subst hr
    simp [dialTCP, hres, hd]

/-- C3: for a CONNECT request that is not `connect-udp` and carries the secret,
when the lookup of the host reports an error or no address, or the dial of the
resolved address fails, the handler answers 503 with `proxy-status` set to
`SimpleNetworkRelay; error=destination_unavailable`; the calls on the response
writer are the same in the three cases, no byte is relayed and no connection is
used. -/
theorem handleRequest_unreachable_goDirect (env : Env) (w : ResponseWriter) (r : Request)
    (hm : r.Method = MethodConnect) (hp : r.Proto ≠ "connect-udp")
    (ha : Header.Get env.canon r.Header "auth" = "secret")
    (hfail : dialFails env r.Host)
    (hfresh : Header.Values env.canon w.header "proxy-status" = []) :
    statusCodes (handleRequest env w r).trace = [503] ∧
    Header.Values env.canon (handleRequest env w r).w.header "proxy-status" =
      ["SimpleNetworkRelay; error=destination_unavailable"] ∧
    (handleRequest env w r).trace.filter Event.onResponse =
      [Event.headerAdd "proxy-status" "SimpleNetworkRelay; error=destination_unavailable",
        Event.writeHeader 503] ++ (if w.isFlusher then [Event.flush] else []) ∧
    (∀ e ∈ (handleRequest env w r).trace, e.relays = false ∧ e.onConn = false) := by
  obtain ⟨evs, err, hd⟩ := dialTCP_of_dialFails env r.Host hfail
  have hev := dialTCP_error_onConn env r.Host evs err hd
  have hcodes : statusCodes evs = [] :=
    filterMap_none _ _ fun e he => (outbound_facts e (hev e he).2).1
  have hresp : evs.filter Event.onResponse = [] :=
    List.filter_eq_nil_iff.mpr fun e he => by simp [(outbound_facts e (hev e he).2).2.2.1]
  rw [handleRequest_dialFailed env w r hm hp ha evs err hd, writeHeader_goDirect]
  refine ⟨?_, ?_, ?_, ?_⟩
  · simp only [statusCodes_append, hcodes]
    cases w.isFlusher <;> rfl
  · simp only [header_add_values, hfresh]
    rfl
  · simp only [List.filter_append, hresp]
    cases w.isFlusher <;> rfl
  · intro e he
    simp only [List.mem_append, List.mem_cons, List.mem_singleton, List.not_mem_nil,
      or_false] at he
    rcases he with (((rfl | he) | rfl) | (rfl | rfl) | he) | rfl
    · exact ⟨rfl, rfl⟩
    · exact ⟨(outbound_facts e (hev e he).2).2.2.2.1, (hev e he).1⟩
    · exact ⟨rfl, rfl⟩
    · exact ⟨rfl, rfl⟩
    · exact ⟨rfl, rfl⟩
    · cases hf : w.isFlusher <;> simp [hf] at he
      subst he
      exact ⟨rfl, rfl⟩
    · exact ⟨rfl, rfl⟩

theorem handleRequest_unreachable_goDirect_witness :
    dialFails sampleEnv (sampleRequest "CONNECT" "HTTP/3.0" "unknown-host:80" "secret").Host ∧
    statusCodes (handleRequest sampleEnv sampleWriter
      (sampleRequest "CONNECT" "HTTP/3.0" "unknown-host:80" "secret")).trace = [503] :=
  ⟨Or.inl ⟨by decide, _, rfl⟩,
    (handleRequest_unreachable_goDirect sampleEnv sampleWriter
      (sampleRequest "CONNECT" "HTTP/3.0" "unknown-host:80" "secret")
      (by decide) (by decide) (by decide) (Or.inl ⟨by decide, _, rfl⟩) (by decide)).1⟩

theorem mem_pre_of_split {A B pre post : List Event} {x e : Event} (hx : x ∈ A)
    (hA : e ∉ A) (h : A ++ B = pre ++ e :: post) : x ∈ pre := by
  rcases List.append_eq_append_iff.mp h with ⟨a, hpre, _⟩ | ⟨c, hAeq, hc⟩
  · rw [hpre]
    exact List.mem_append_left a hx
  · cases c with
    | nil => simpa [hAeq] using hx
    | cons y ys =>
      simp only [List.cons_append, List.cons.injEq] at hc
      exact absurd (by rw [hAeq, hc.1]; simp) hA

theorem handleRequest_established_trace (env : Env) (w : ResponseWriter) (r : Request)
    (hm : r.Method = MethodConnect) (hp : r.Proto ≠ "connect-udp")
    (ha : Header.Get env.canon r.Header "auth" = "secret")
    (evs : List Event) (c : Conn) (hd : dialTCP env r.Host = (evs, .ok c)) :
    ∃ tail : List Event,
      (handleRequest env w r).trace =
        establishedHead w r evs ++
          (relay env.sched w { r with Close := true } c ++ ([Event.connClose] ++ tail ++
            [Event.bodyClose])) ∧
      (tail = [] ∨ ∃ l, tail = [Event.log l]) ∧
      (handleRequest env w r).w.header = w.header := by
  rw [handleRequest_established env w r hm hp ha evs c hd]
  refine ⟨tunnelClosedLog (proxyData env.sched w { r with Close := true } c).2.2, ?_, ?_, ?_⟩
  · simp only [proxyData, establishedHead, connectLine, List.append_assoc]
  · cases (proxyData env.sched w { r with Close := true } c).2.2 with
    | none => exact Or.inl rfl
    | some e => exact Or.inr ⟨_, rfl⟩
  · exact (copyDown_header w c).1

theorem establishedHead_facts (env : Env) (w : ResponseWriter) (r : Request)
    (evs : List Event) (res : Except GoError Conn) (hd : dialTCP env r.Host = (evs, res)) :
    statusCodes (establishedHead w r evs) = [200] ∧
    Event.writeHeader 200 ∈ establishedHead w r evs ∧
    (∀ b, Event.write b ∉ establishedHead w r evs) ∧
    (∀ k v, Event.headerAdd k v ∉ establishedHead w r evs) := by
  have hev : ∀ e ∈ evs, e.outbound = true := by
    have h := dialTCP_events env r.Host
    rw [hd] at h
    exact h
  have hcodes : statusCodes evs = [] :=
    filterMap_none _ _ fun e he => (outbound_facts e (hev e he)).1
  refine ⟨?_, ?_, ?_, ?_⟩
  · simp only [establishedHead, statusCodes_append, hcodes]
    cases w.isFlusher <;> rfl
  · simp [establishedHead]
  · intro b hb
    simp only [establishedHead, List.mem_append, List.mem_cons, List.mem_singleton,
      List.not_mem_nil, or_false] at hb
    rcases hb with (hb | hb) | hb | hb
    · cases hb
    · exact (outbound_facts _ (hev _ hb)).2.2.2.2.1 b rfl
    · cases hb
    · cases hf : w.isFlusher <;> simp [hf] at hb
  · intro k v hb
    simp only [establishedHead, List.mem_append, List.mem_cons, List.mem_singleton,
      List.not_mem_nil, or_false] at hb
    rcases hb with (hb | hb) | hb | hb
    · cases hb
    · exact (outbound_facts _ (hev _ hb)).2.2.2.2.2 k v rfl
    · cases hb
    · cases hf : w.isFlusher <;> simp [hf] at hb

theorem established_statusCodes (env : Env) (w : ResponseWriter) (r : Request)
    (hm : r.Method = MethodConnect) (hp : r.Proto ≠ "connect-udp")
    (ha : Header.Get env.canon r.Header "auth" = "secret")
    (evs : List Event) (c : Conn) (hd : dialTCP env r.Host = (evs, .ok c)) :
    statusCodes (handleRequest env w r).trace = [200] := by
  obtain ⟨tail, ht, htail, -⟩ := handleRequest_established_trace env w r hm hp ha evs c hd
  rw [ht]
  simp only [statusCodes_append, statusCodes_relay,
    (establishedHead_facts env w r evs _ hd).1]
  rcases htail with rfl | ⟨l, rfl⟩ <;> rfl

theorem dialTCP_literal (env : Env) (a : String) (ip : IP) (c : Conn)
    (hip : env.ParseIP (splitHostPort a).1 = some ip)
    (hdial : env.Dial "tcp" (JoinHostPort (env.ipString ip) (splitHostPort a).2) = .ok c) :
    dialTCP env a =
      ([Event.dial (JoinHostPort (env.ipString ip) (splitHostPort a).2) true], .ok c) := by
  simp [dialTCP, resolveDNS, hip, hdial]

/-- C4: for a CONNECT request that is not `connect-udp` and carries the secret,
whose authority names a literal IP address and whose dial succeeds, the handler
answers 200, adds no header (none under `proxy-status` on a writer that had
none), and never calls the name resolver: `resolveDNS` returns the parsed
address, with no call made, whatever the resolver would answer. -/
theorem handleRequest_literalIP_established (env : Env) (w : ResponseWriter) (r : Request)
    (hm : r.Method = MethodConnect) (hp : r.Proto ≠ "connect-udp")
    (ha : Header.Get env.canon r.Header "auth" = "secret")
    (ip : IP) (hip : env.ParseIP (splitHostPort r.Host).1 = some ip)
    (c : Conn)
    (hdial : env.Dial "tcp" (JoinHostPort (env.ipString ip) (splitHostPort r.Host).2) = .ok c)
    (hfresh : Header.Values env.canon w.header "proxy-status" = []) :
    statusCodes (handleRequest env w r).trace = [200] ∧
    Header.Values env.canon (handleRequest env w r).w.header "proxy-status" = [] ∧
    (∀ k v, Event.headerAdd k v ∉ (handleRequest env w r).trace) ∧
    (∀ h, Event.lookupIPAddr h ∉ (handleRequest env w r).trace) ∧
    (∀ lookup : String → Except GoError (List IP),
      resolveDNS { env with LookupIPAddr := lookup } (splitHostPort r.Host).1 = ([], .ok ip)) := by
  have hd := dialTCP_literal env r.Host ip c hip hdial
  obtain ⟨tail, ht, htail, hhdr⟩ := handleRequest_established_trace env w r hm hp ha _ c hd
  have hhead := establishedHead_facts env w r _ _ hd
  refine ⟨established_statusCodes env w r hm hp ha _ c hd, ?_, ?_, ?_, ?_⟩
  · simpa [Header.Values, hhdr] using hfresh
  · intro k v hmem
    rw [ht] at hmem
    simp only [List.mem_append, List.mem_cons, List.mem_singleton, List.not_mem_nil,
      or_false] at hmem
    rcases hmem with hmem | hmem | (hmem | hmem) | hmem
    · exact hhead.2.2.2 k v hmem
    · exact (ofDir_facts _ (relay_mem _ _ _ _ _ hmem)).2.2.2.2 k v rfl
    · cases hmem
    · rcases htail with rfl | ⟨l, rfl⟩ <;> simp at hmem
    · cases hmem
  · intro h hmem
    rw [ht] at hmem
    simp only [establishedHead, List.mem_append, List.mem_cons, List.mem_singleton,
      List.not_mem_nil, or_false] at hmem
    rcases hmem with ((hmem | hmem) | hmem | hmem) | hmem | (hmem | hmem) | hmem
    · cases hmem
    · cases hmem
    · cases hmem
    · cases hf : w.isFlusher <;> simp [hf] at hmem
    · have := (ofDir_facts _ (relay_mem _ _ _ _ _ hmem)).2.2.1
      simp [Event.outbound] at this
    · cases hmem
    · rcases htail with rfl | ⟨l, rfl⟩ <;> simp at hmem
    · cases hmem
  · intro lookup
    simp [resolveDNS, hip]

theorem handleRequest_literalIP_established_witness :
    sampleEnv.ParseIP
      (splitHostPort (sampleRequest "CONNECT" "HTTP/3.0" "127.0.0.1:8080" "secret").Host).1 =
      some loopback ∧
    statusCodes (handleRequest sampleEnv sampleWriter
      (sampleRequest "CONNECT" "HTTP/3.0" "127.0.0.1:8080" "secret")).trace = [200] :=
  ⟨by decide,
    (handleRequest_literalIP_established sampleEnv sampleWriter
      (sampleRequest "CONNECT" "HTTP/3.0" "127.0.0.1:8080" "secret")
      (by decide) (by decide) (by decide) loopback (by decide) sampleConn (by rfl)
      (by decide)).1⟩

theorem writeHeader_decline_events (canon : String → String) (w : ResponseWriter)
    (s : proxyStatus) (hs : s = statusGoDirect ∨ s = statusBlock) :
    statusCodes (writeHeader canon w s).2 = [s.code] ∧
    (s.code = 503 ∨ s.code = 502) ∧
    ∀ e ∈ (writeHeader canon w s).2,
      e.onConn = false ∧ e.relays = false ∧ e.outbound = false ∧ e.line? = none := by
  rcases hs with rfl | rfl
  · rw [writeHeader_goDirect]
    cases w.isFlusher <;> simp [statusCodes, Event.code?, Event.onConn, Event.relays,
      Event.outbound, Event.line?, statusGoDirect, StatusServiceUnavailable]
  · rw [writeHeader_block]
    cases w.isFlusher <;> simp [statusCodes, Event.code?, Event.onConn, Event.relays,
      Event.outbound, Event.line?, statusBlock, StatusBadGateway]

/-- Every run of `handleRequest` either declines, with calls `pre` (none when
the request is rejected by a check, otherwise the log lines and the calls of a
failed `dialTCP`) followed by one `writeHeader` of a decline status, or
establishes the tunnel. -/
theorem handleRequest_paths (env : Env) (w : ResponseWriter) (r : Request) :
    (∃ s pre, (s = statusGoDirect ∨ s = statusBlock) ∧
      (handleRequest env w r).trace = pre ++ (writeHeader env.canon w s).2 ++ [Event.bodyClose] ∧
      (∀ e ∈ pre, e.onConn = false ∧ e.relays = false ∧ e.code? = none) ∧
      (rejected env r → pre = [])) ∨
    (∃ evs c, r.Method = MethodConnect ∧ r.Proto ≠ "connect-udp" ∧
      Header.Get env.canon r.Header "auth" = "secret" ∧ dialTCP env r.Host = (evs, .ok c)) := by
  by_cases hreq : r.Method ≠ MethodConnect ∨ r.Proto = "connect-udp"
  · left
    refine ⟨statusGoDirect, [], Or.inl rfl, ?_, by simp, fun _ => rfl⟩
    rw [handleRequest_unsupported env w r hreq]
    rfl
  · have hm : r.Method = MethodConnect := by
      by_contra h
      exact hreq (Or.inl h)
    have hp : r.Proto ≠ "connect-udp" := fun h => hreq (Or.inr h)
    by_cases ha : Header.Get env.canon r.Header "auth" = "secret"
    · obtain ⟨evs, res, hd⟩ : ∃ evs res, dialTCP env r.Host = (evs, res) := ⟨_, _, rfl⟩
      cases res with
      | error err =>
        left
        have hev := dialTCP_error_onConn env r.Host evs err hd
        refine ⟨statusGoDirect,
          [Event.log ("CONNECT request from '" ++ r.RemoteAddr ++ "' to '" ++ r.Host ++ "'")] ++
            evs ++ [Event.log ("Failed to connect to '" ++ r.Host ++ "': " ++ err.Error)],
          Or.inl rfl, by rw [handleRequest_dialFailed env w r hm hp ha evs err hd], ?_, ?_⟩
        · intro e he
          simp only [List.mem_append, List.mem_singleton] at he
          rcases he with (rfl | he) | rfl
          · exact ⟨rfl, rfl, rfl⟩
          · exact ⟨(hev e he).1, (outbound_facts e (hev e he).2).2.2.2.1,
              (outbound_facts e (hev e he).2).1⟩
          · exact ⟨rfl, rfl, rfl⟩
        · intro hrej
          rcases hrej with h | h | h
          · exact absurd hm h
          · exact absurd h hp
          · exact absurd ha h
      | ok c => exact Or.inr ⟨evs, c, hm, hp, ha, hd⟩
    · left
      refine ⟨statusBlock, [], Or.inr rfl, ?_, by simp, fun _ => rfl⟩
      rw [handleRequest_blocked env w r hm hp ha]
      rfl

/-- C6: in every run of `handleRequest` at most one `WriteHeader` call is made,
and every write of relayed bytes to the response comes after it: the calls
before such a write hold the one `WriteHeader`, of code 200, and none follows. -/
theorem handleRequest_status_before_bytes (env : Env) (w : ResponseWriter) (r : Request) :
    (statusCodes (handleRequest env w r).trace).length ≤ 1 ∧
    ∀ pre b post, (handleRequest env w r).trace = pre ++ Event.write b :: post →
      Event.writeHeader 200 ∈ pre ∧ statusCodes pre = [200] ∧ statusCodes post = [] := by
  rcases handleRequest_paths env w r with ⟨s, pre0, hs, ht, hpre, -⟩ | ⟨evs, c, hm, hp, ha, hd⟩
  · have hw := writeHeader_decline_events env.canon w s hs
    have hcodes : statusCodes pre0 = [] := filterMap_none _ _ fun e he => (hpre e he).2.2
    refine ⟨?_, ?_⟩
    · rw [ht]
      simp [statusCodes_append, hcodes, hw.1]
      simp [statusCodes, Event.code?]
    · intro pre b post hsplit
      exfalso
      have hmem : Event.write b ∈ (handleRequest env w r).trace := by
        rw [hsplit]
        simp
      rw [ht] at hmem
      simp only [List.mem_append, List.mem_singleton] at hmem
      rcases hmem with (hmem | hmem) | hmem
      · have := (hpre _ hmem).2.1
        simp [Event.relays] at this
      · have := (hw.2.2 _ hmem).2.1
        simp [Event.relays] at this
      · cases hmem
  · have hcodes := established_statusCodes env w r hm hp ha evs c hd
    obtain ⟨tail, ht, -, -⟩ := handleRequest_established_trace env w r hm hp ha evs c hd
    have hhead := establishedHead_facts env w r evs _ hd
    refine ⟨by simp [hcodes], ?_⟩
    intro pre b post hsplit
    have hin : Event.writeHeader 200 ∈ pre :=
      mem_pre_of_split hhead.2.1 (hhead.2.2.1 b) (ht.symm.trans hsplit)
    have hsum : statusCodes pre ++ statusCodes post = [200] := by
      have h := hcodes
      rw [hsplit, statusCodes_append] at h
      simpa [statusCodes, Event.code?] using h
    have hne : statusCodes pre ≠ [] := by
      intro h
      have hmem : (200 : Nat) ∈ statusCodes pre :=
        List.mem_filterMap.mpr ⟨_, hin, rfl⟩
      rw [h] at hmem
      cases hmem
    cases hp1 : statusCodes pre with
    | nil => exact absurd hp1 hne
    | cons x xs =>
      rw [hp1] at hsum
      simp only [List.cons_append, List.cons.injEq, List.append_eq_nil] at hsum
      obtain ⟨rfl, rfl, h2⟩ := hsum
      exact ⟨hin, rfl, h2⟩

/-- C7: when `handleRequest` declines (it calls `WriteHeader` with 503 or 502),
exactly one `WriteHeader` call is made and no outbound connection is opened or
used; and a request turned away by the method check, the variant check or the
secret check is declined with neither a name lookup nor a dial. -/
theorem handleRequest_declined_no_outbound (env : Env) (w : ResponseWriter) (r : Request) :
    ((503 ∈ statusCodes (handleRequest env w r).trace ∨
        502 ∈ statusCodes (handleRequest env w r).trace) →
      (statusCodes (handleRequest env w r).trace).length = 1 ∧
      ∀ e ∈ (handleRequest env w r).trace, e.onConn = false) ∧
    (rejected env r →
      (503 ∈ statusCodes (handleRequest env w r).trace ∨
        502 ∈ statusCodes (handleRequest env w r).trace) ∧
      ∀ e ∈ (handleRequest env w r).trace, e.outbound = false) := by
  rcases handleRequest_paths env w r with ⟨s, pre0, hs, ht, hpre, hrej⟩ | ⟨evs, c, hm, hp, ha, hd⟩
  · have hw := writeHeader_decline_events env.canon w s hs
    have hcodes : statusCodes pre0 = [] := filterMap_none _ _ fun e he => (hpre e he).2.2
    have hall : statusCodes (handleRequest env w r).trace = [s.code] := by
      rw [ht]
      simp [statusCodes_append, hcodes, hw.1]
      simp [statusCodes, Event.code?]
    refine ⟨fun _ => ⟨by simp [hall], ?_⟩, fun hr => ⟨?_, ?_⟩⟩
    · intro e he
      rw [ht] at he
      simp only [List.mem_append, List.mem_singleton] at he
      rcases he with (he | he) | rfl
      · exact (hpre e he).1
      · exact (hw.2.2 e he).1
      · rfl
    · rw [hall]
      rcases hw.2.1 with h | h <;> simp [h]
    · intro e he
      rw [ht, hrej hr] at he
      simp only [List.nil_append, List.mem_append, List.mem_singleton] at he
      rcases he with he | rfl
      · exact (hw.2.2 e he).2.2.1
      · rfl
  · have hcodes := established_statusCodes env w r hm hp ha evs c hd
    refine ⟨fun hdecl => ?_, fun hr => ?_⟩
    · rw [hcodes] at hdecl
      simp at hdecl
    · rcases hr with h | h | h
      · exact absurd hm h
      · exact absurd h hp
      · exact absurd ha h

theorem handleRequest_declined_no_outbound_witness :
    rejected sampleEnv (sampleRequest "CONNECT" "HTTP/3.0" "example.com:443" "guess") ∧
    statusCodes (handleRequest sampleEnv sampleWriter
      (sampleRequest "CONNECT" "HTTP/3.0" "example.com:443" "guess")).trace = [502] ∧
    ∀ e ∈ (handleRequest sampleEnv sampleWriter
      (sampleRequest "CONNECT" "HTTP/3.0" "example.com:443" "guess")).trace,
      e.outbound = false :=
  ⟨Or.inr (Or.inr (by decide)), by decide,
    ((handleRequest_declined_no_outbound sampleEnv sampleWriter
      (sampleRequest "CONNECT" "HTTP/3.0" "example.com:443" "guess")).2
        (Or.inr (Or.inr (by decide)))).2⟩

/-- C9, as stated, fails: a CONNECT request declined for a wrong `auth` value
(answered 502) leaves no log line at all. -/
theorem badSecret_not_logged :
    (sampleRequest "CONNECT" "HTTP/3.0" "example.com:443" "guess").Method = MethodConnect ∧
    Header.Get sampleEnv.canon
      (sampleRequest "CONNECT" "HTTP/3.0" "example.com:443" "guess").Header "auth" ≠ "secret" ∧
    statusCodes (handleRequest sampleEnv sampleWriter
      (sampleRequest "CONNECT" "HTTP/3.0" "example.com:443" "guess")).trace = [502] ∧
    logLines (handleRequest sampleEnv sampleWriter
      (sampleRequest "CONNECT" "HTTP/3.0" "example.com:443" "guess")).trace = [] := by
  decide

/-- C9, amended: for a CONNECT request that is not `connect-udp`, a decline for
a wrong `auth` value logs nothing; the line with the peer address and the
authority is logged once the secret check has passed, so a decline for a failed
resolution or dial logs that line and then a line with the authority and the
error. -/
theorem handleRequest_log_lines (env : Env) (w : ResponseWriter) (r : Request)
    (hm : r.Method = MethodConnect) (hp : r.Proto ≠ "connect-udp") :
    (Header.Get env.canon r.Header "auth" ≠ "secret" →
      logLines (handleRequest env w r).trace = []) ∧
    (Header.Get env.canon r.Header "auth" = "secret" →
      ∀ evs err, dialTCP env r.Host = (evs, .error err) →
        logLines (handleRequest env w r).trace =
          ["CONNECT request from '" ++ r.RemoteAddr ++ "' to '" ++ r.Host ++ "'",
            "Failed to connect to '" ++ r.Host ++ "': " ++ err.Error]) := by
  refine ⟨?_, ?_⟩
  · intro ha
    rw [handleRequest_blocked env w r hm hp ha, writeHeader_block]
    cases w.isFlusher <;> rfl
  · intro ha evs err hd
    have hl : logLines evs = [] := by
      have h := logLines_dialTCP env r.Host
      rw [hd] at h
      exact h
    rw [handleRequest_dialFailed env w r hm hp ha evs err hd, writeHeader_goDirect]
    simp only [logLines_append, hl]
    cases w.isFlusher <;> rfl

theorem handleRequest_log_lines_witness :
    logLines (handleRequest sampleEnv sampleWriter
      (sampleRequest "CONNECT" "HTTP/3.0" "unknown-host:80" "secret")).trace =
      ["CONNECT request from '192.0.2.7:50000' to 'unknown-host:80'",
        "Failed to connect to 'unknown-host:80': " ++
          "failed to resolve host 'unknown-host': lookup unknown-host: no such host"] :=
  (handleRequest_log_lines sampleEnv sampleWriter
    (sampleRequest "CONNECT" "HTTP/3.0" "unknown-host:80" "secret")
    (by decide) (by decide)).2 (by decide) _ _ rfl

/-- C8, as stated, fails: on a writer that has the flush capability, a write
that returns an error is not followed by `Flush`. -/
theorem failedWrite_not_flushed :
    brokenWriter.isFlusher = true ∧
    (flushingWriter.Write brokenWriter [104, 105]).events = [Event.write [104, 105]] ∧
    Event.flush ∉ (flushingWriter.Write brokenWriter [104, 105]).events := by
  decide

/-- C8, amended: `flushingWriter.Write(b)` calls `Write(b)` of the underlying
writer once and returns its `(n, err)` unchanged; it calls `Flush` right after
that write exactly when the writer has the flush capability and the write
returned no error, and makes no other call. -/
theorem flushingWriter_write_spec (w : ResponseWriter) (b : Bytes) :
    (flushingWriter.Write w b).n = (w.writeResult w.writes b).1 ∧
    (flushingWriter.Write w b).err = (w.writeResult w.writes b).2 ∧
    (flushingWriter.Write w b).dst.writes = w.writes + 1 ∧
    (w.isFlusher = true → (w.writeResult w.writes b).2 = none →
      (flushingWriter.Write w b).events = [Event.write b, Event.flush]) ∧
    ((w.writeResult w.writes b).2 ≠ none →
      (flushingWriter.Write w b).events = [Event.write b]) ∧
    (w.isFlusher = false → (flushingWriter.Write w b).events = [Event.write b]) := by
  refine ⟨rfl, rfl, rfl, ?_, ?_, ?_⟩
  · intro hf he
    simp [flushingWriter.Write, hf, he]
  · intro he
    simp [flushingWriter.Write, he]
  · intro hf
    simp [flushingWriter.Write, hf]

theorem flushingWriter_write_spec_witness :
    (flushingWriter.Write sampleWriter [104, 105]).events =
      [Event.write [104, 105], Event.flush] :=
  (flushingWriter_write_spec sampleWriter [104, 105]).2.2.2.1 rfl rfl

theorem firstError_none (l : List Event) :
    firstError l = none ↔ ∀ d e, Event.done d (some e) ∉ l := by
  induction l with
  | nil => simp [firstError]
  | cons x xs ih =>
    cases x with
    | done d err =>
      cases err with
      | none => simp [firstError, ih]
      | some e =>
        constructor
        · intro h
          simp [firstError] at h
        · intro h
          exact absurd (List.mem_cons_self _ _) (h d e)
    | _ => simp [firstError, ih]

theorem firstError_some (l : List Event) (e : GoError) (h : firstError l = some e) :
    ∃ pre d post, l = pre ++ Event.done d (some e) :: post ∧
      ∀ d' e', Event.done d' (some e') ∉ pre := by
  induction l with
  | nil => simp [firstError] at h
  | cons x xs ih =>
    by_cases hx : ∃ d e', x = Event.done d (some e')
    · obtain ⟨d, e', rfl⟩ := hx
      simp only [firstError, Option.some.injEq] at h
      subst h
      exact ⟨[], d, xs, rfl, by simp⟩
    · have hrest : firstError (x :: xs) = firstError xs := by
        cases x with
        | done d err =>
          cases err with
          | none => rfl
          | some e' => exact absurd ⟨d, e', rfl⟩ hx
        | _ => rfl
      rw [hrest] at h
      obtain ⟨pre, d, post, hl, hpre⟩ := ih h
      refine ⟨x :: pre, d, post, by simp [hl], ?_⟩
      intro d' e' hmem
      simp only [List.mem_cons] at hmem
      rcases hmem with hmem | hmem
      · exact hx ⟨d', e', hmem.symm⟩
      · exact hpre d' e' hmem

theorem copyUp_not_done (r : Request) (c : Conn) :
    ∀ e ∈ (copyUp r c).events, ∀ d err, e ≠ Event.done d err := by
  apply ioCopy_events (fun e => ∀ d err, e ≠ Event.done d err)
  · intro d err h
    cases h
  · intro s b e he d err h
    subst h
    simp [Conn.Write] at he

theorem copyDown_not_done (w : ResponseWriter) (c : Conn) :
    ∀ e ∈ (copyDown w c).events, ∀ d err, e ≠ Event.done d err := by
  apply ioCopy_events (fun e => ∀ d err, e ≠ Event.done d err)
  · intro d err h
    cases h
  · intro s b e he d err h
    subst h
    simp only [flushingWriter.Write, List.mem_cons] at he
    rcases he with he | he
    · cases he
    · split at he <;> simp at he

theorem relay_no_close (sched : List Bool) (w : ResponseWriter) (r : Request) (c : Conn) :
    Event.connClose ∉ relay sched w r c := fun h =>
  (ofDir_facts _ (relay_mem sched w r c _ h)).2.2.2.1 rfl

/-- C10: whatever the order in which the two goroutines of `proxyData` run, the
outbound connection is closed once, as the last call, after both have returned;
the calls of each direction are those of its own `io.Copy` run to its end,
whatever the other direction did; and the result is nil exactly when both
directions returned nil, and otherwise the error of the direction that was the
first to return one. -/
theorem proxyData_waits_for_both (sched : List Bool) (w : ResponseWriter) (r : Request)
    (c : Conn) :
    (proxyData sched w r c).2.1 = relay sched w r c ++ [Event.connClose] ∧
    Event.done Dir.up (copyUp r c).err ∈ relay sched w r c ∧
    Event.done Dir.down (copyDown w c).err ∈ relay sched w r c ∧
    (proxyData sched w r c).2.1.count Event.connClose = 1 ∧
    (relay sched w r c).filter (Event.ofDir Dir.up) =
      (copyUp r c).events ++ [Event.done Dir.up (copyUp r c).err] ∧
    (relay sched w r c).filter (Event.ofDir Dir.down) =
      (copyDown w c).events ++ [Event.done Dir.down (copyDown w c).err] ∧
    ((proxyData sched w r c).2.2 = none ↔
      (copyUp r c).err = none ∧ (copyDown w c).err = none) ∧
    (∀ e, (proxyData sched w r c).2.2 = some e →
      ∃ pre d post, relay sched w r c = pre ++ Event.done d (some e) :: post ∧
        ∀ d' e', Event.done d' (some e') ∉ pre) := by
  have hup : Event.done Dir.up (copyUp r c).err ∈ upRun r c := by simp [upRun]
  have hdown : Event.done Dir.down (copyDown w c).err ∈ downRun w c := by simp [downRun]
  refine ⟨rfl, ?_, ?_, ?_, ?_, ?_, ?_, ?_⟩
  · rw [relay_eq, mem_interleave]
    exact Or.inl hup
  · rw [relay_eq, mem_interleave]
    exact Or.inr hdown
  · simp only [proxyData, List.count_append]
    rw [List.count_eq_zero_of_not_mem (relay_no_close sched w r c)]
    rfl
  · rw [relay_eq]
    exact filter_interleave_left _ sched _ _ (upRun_events r c)
      fun e he => ofDir_down_not_up e (downRun_events w c e he)
  · rw [relay_eq]
    exact filter_interleave_right _ sched _ _
      (fun e he => ofDir_up_not_down e (upRun_events r c e he)) (downRun_events w c)
  · simp only [proxyData, firstError_none]
    constructor
    · intro h
      constructor
      · cases hu : (copyUp r c).err with
        | none => rfl
        | some e =>
          refine absurd ?_ (h Dir.up e)
          rw [relay_eq, mem_interleave, ← hu]
          exact Or.inl hup
      · cases hdn : (copyDown w c).err with
        | none => rfl
        | some e =>
          refine absurd ?_ (h Dir.down e)
          rw [relay_eq, mem_interleave, ← hdn]
          exact Or.inr hdown
    · rintro ⟨hu, hdn⟩ d e hmem
      rw [relay_eq, mem_interleave] at hmem
      simp only [upRun, downRun, List.mem_append, List.mem_singleton, hu, hdn] at hmem
      rcases hmem with (hmem | hmem) | (hmem | hmem)
      · exact copyUp_not_done r c _ hmem d (some e) rfl
      · cases hmem
      · exact copyDown_not_done w c _ hmem d (some e) rfl
      · cases hmem
  · intro e he
    exact firstError_some _ e he

/-! ## Splitting the authority -/

theorem indexByte_none (c : Char) : ∀ s : List Char, indexByte s c = none ↔ c ∉ s
  | [] => by simp [indexByte]
  | x :: xs => by
    by_cases hx : x = c
    · simp [indexByte, hx]
    · have hx2 : ¬ c = x := fun h => hx h.symm
      simp [indexByte, hx, hx2, indexByte_none c xs]

theorem indexByte_take_succ (c : Char) :
    ∀ (s : List Char) (k : Nat), indexByte s c = some k → s.take (k + 1) = s.take k ++ [c]
  | [], k => by simp [indexByte]
  | x :: xs, k => by
    by_cases hx : x = c
    · simp only [indexByte, hx, if_true, Option.some.injEq]
      intro hk
      subst hk
      simp
    · simp only [indexByte, hx, if_false, Option.map_eq_some']
      rintro ⟨j, hj, rfl⟩
      simp [indexByte_take_succ c xs j hj]

theorem lastIndexByte_none (c : Char) : ∀ s : List Char, lastIndexByte s c = none ↔ c ∉ s
  | [] => by simp [lastIndexByte]
  | x :: xs => by
    have ih := lastIndexByte_none c xs
    cases h : lastIndexByte xs c with
    | none =>
      have hn : c ∉ xs := ih.mp h
      by_cases hx : x = c
      · simp [lastIndexByte, h, hx]
      · have hx2 : ¬ c = x := fun e => hx e.symm
        simp [lastIndexByte, h, hx, hx2, hn]
    | some i =>
      have hm : c ∈ xs := by
        by_contra hn
        rw [ih.mpr hn] at h
        cases h
      simp [lastIndexByte, h, hm]

theorem lastIndexByte_some (c : Char) :
    ∀ (s : List Char) (i : Nat), lastIndexByte s c = some i →
      s = s.take i ++ c :: s.drop (i + 1) ∧ c ∉ s.drop (i + 1)
  | [], i => by simp [lastIndexByte]
  | x :: xs, i => by
    intro h
    cases hxs : lastIndexByte xs c with
    | none =>
      have hn : c ∉ xs := (lastIndexByte_none c xs).mp hxs
      by_cases hx : x = c
      · simp only [lastIndexByte, hxs, hx, if_true, Option.some.injEq] at h
        subst h
        simpa [hx] using hn
      · simp [lastIndexByte, hxs, hx] at h
    | some j =>
      simp only [lastIndexByte, hxs, Option.some.injEq] at h
      subst h
      obtain ⟨h1, h2⟩ := lastIndexByte_some c xs j hxs
      refine ⟨?_, by simpa using h2⟩
      simp only [List.take_succ_cons, List.drop_succ_cons, List.cons_append, List.cons.injEq,
        true_and]
      exact h1

theorem splitTail_ok (s host : List Char) (i j k : Nat) (h p : String)
    (hok : splitTail s host i j k = .ok (h, p)) :
    h = String.mk host ∧ p = String.mk (s.drop (i + 1)) := by
  simp only [splitTail] at hok
  split at hok
  · cases hok
  · split at hok
    · cases hok
    · simp only [Except.ok.injEq, Prod.mk.injEq] at hok
      exact ⟨hok.1.symm, hok.2.symm⟩

/-- What a successful `net.SplitHostPort` returns: the port is the text after the
last colon, the host the text before it, without its brackets when the address
starts with `[`. -/
theorem SplitHostPort_ok (a h p : String) (hok : SplitHostPort a = .ok (h, p)) :
    ∃ i, lastIndexByte a.data ':' = some i ∧ p.data = a.data.drop (i + 1) ∧
      ((a.data.head? ≠ some '[' ∧ a.data.take i = h.data) ∨
        (a.data.head? = some '[' ∧ a.data.take i = '[' :: h.data ++ [']'])) := by
  simp only [SplitHostPort] at hok
  split at hok
  · cases hok
  · rename_i i hi
    refine ⟨i, hi, ?_⟩
    split at hok
    · rename_i hhead
      split at hok
      · cases hok
      · rename_i e he
        split at hok
        · cases hok
        · split at hok
          · rename_i hne hei
            obtain ⟨rfl, rfl⟩ := splitTail_ok _ _ _ _ _ _ _ hok
            refine ⟨rfl, Or.inr ⟨hhead, ?_⟩⟩
            cases hs : a.data with
            | nil => simp [hs] at hhead
            | cons x t =>
              rw [hs] at hhead he
              simp only [List.head?_cons, Option.some.injEq] at hhead
              subst hhead
              have hb : ¬ ('[' = ']') := by decide
              simp only [indexByte, hb, if_false, Option.map_eq_some'] at he
              obtain ⟨j, hj, rfl⟩ := he
              rw [← hei]
              simp [indexByte_take_succ ']' t j hj]
          · split at hok <;> cases hok
    · rename_i hhead
      split at hok
      · cases hok
      · obtain ⟨rfl, rfl⟩ := splitTail_ok _ _ _ _ _ _ _ hok
        exact ⟨rfl, Or.inl ⟨hhead, rfl⟩⟩

/-- C5, as stated, fails: for an authority that ends in a colon, such as
`example.com:` or `127.0.0.1:`, the split succeeds and the port it returns is
empty, and the handler dials the address `127.0.0.1:` with that empty port. -/
theorem splitHostPort_trailing_colon_empty_port :
    splitHostPort "example.com:" = ("example.com", "") ∧
    (splitHostPort "127.0.0.1:").2 = "" ∧
    Event.dial "127.0.0.1:" false ∈ (handleRequest sampleEnv sampleWriter
      (sampleRequest "CONNECT" "HTTP/3.0" "127.0.0.1:" "secret")).trace := by
  decide

/-- C5, amended: when `net.SplitHostPort` fails, as it does for every authority
without a colon, `splitHostPort` returns the whole authority and `443`;
otherwise it returns the text after the last colon as port and the text before
it as host, whole when the authority does not start with `[` and without the
enclosing brackets when it does.
The port is empty exactly when the split succeeds on an authority that ends in
a colon; for every authority that does not end in a colon it is not empty. -/
theorem splitHostPort_spec (authority : String) :
    (':' ∉ authority.data → splitHostPort authority = (authority, "443")) ∧
    (∀ e, SplitHostPort authority = .error e → splitHostPort authority = (authority, "443")) ∧
    (∀ h p, SplitHostPort authority = .ok (h, p) →
      splitHostPort authority = (h, p) ∧
      ∃ pre, authority.data = pre ++ ':' :: p.data ∧ ':' ∉ p.data ∧
        (pre = h.data ∨ pre = '[' :: h.data ++ [']']) ∧
        (authority.data.head? ≠ some '[' → pre = h.data) ∧
        (authority.data.head? = some '[' → pre = '[' :: h.data ++ [']']) ∧
        (p = "" ↔ authority.data.getLast? = some ':')) ∧
    (authority.data.getLast? ≠ some ':' → (splitHostPort authority).2 ≠ "") := by
  have hok : ∀ h p, SplitHostPort authority = .ok (h, p) →
      splitHostPort authority = (h, p) ∧
      ∃ pre, authority.data = pre ++ ':' :: p.data ∧ ':' ∉ p.data ∧
        (pre = h.data ∨ pre = '[' :: h.data ++ [']']) ∧
        (authority.data.head? ≠ some '[' → pre = h.data) ∧
        (authority.data.head? = some '[' → pre = '[' :: h.data ++ [']']) ∧
        (p = "" ↔ authority.data.getLast? = some ':') := by
    intro h p hsplit
    obtain ⟨i, hi, hp, hh⟩ := SplitHostPort_ok authority h p hsplit
    obtain ⟨h1, h2⟩ := lastIndexByte_some ':' authority.data i hi
    refine ⟨by simp [splitHostPort, hsplit], authority.data.take i, ?_, ?_, ?_, ?_, ?_, ?_⟩
    · rw [hp]
      exact h1
    · rw [hp]
      exact h2
    · rcases hh with ⟨-, h3⟩ | ⟨-, h3⟩
      · exact Or.inl h3
      · exact Or.inr h3
    · intro hno
      rcases hh with ⟨-, h3⟩ | ⟨hb, -⟩
      · exact h3
      · exact absurd hb hno
    · intro hb
      rcases hh with ⟨hno, -⟩ | ⟨-, h3⟩
      · exact absurd hb hno
      · exact h3
    · have hdata : authority.data = authority.data.take i ++ ':' :: p.data := by
        rw [hp]
        exact h1
      constructor
      · intro hpe
        subst hpe
        rw [hdata]
        simp
      · intro hlast
        rw [hdata] at hlast
        cases hpd : p.data with
        | nil => exact String.ext hpd
        | cons x xs =>
          exfalso
          rw [hpd] at hlast
          have hx : (x :: xs).getLast? = some ':' := by
            simpa [List.getLast?_append, List.getLast?_cons_cons] using hlast
          have hmem : ':' ∈ p.data := by
            rw [hpd]
            exact List.mem_of_getLast?_eq_some hx
          rw [hp] at hmem
          exact h2 hmem
  have herr : ∀ e, SplitHostPort authority = .error e →
      splitHostPort authority = (authority, "443") := by
    intro e he
    simp [splitHostPort, he]
  refine ⟨?_, herr, hok, ?_⟩
  · intro hno
    have hl : lastIndexByte authority.data ':' = none := (lastIndexByte_none ':' _).mpr hno
    simp [splitHostPort, SplitHostPort, hl]
  · intro hlast
    cases hs : SplitHostPort authority with
    | error e =>
      rw [herr e hs]
      show ("443" : String) ≠ ""
      decide
    | ok hp =>
      obtain ⟨h, p⟩ := hp
      obtain ⟨heq, pre, -, -, -, -, -, hiff⟩ := hok h p hs
      rw [heq]
      exact fun hpe => hlast (hiff.mp hpe)

theorem splitHostPort_spec_witness :
    splitHostPort "[::1]:8443" = ("::1", "8443") ∧
    splitHostPort "example.com" = ("example.com", "443") :=
  ⟨((splitHostPort_spec "[::1]:8443").2.2.1 "::1" "8443" (by rfl)).1,
    (splitHostPort_spec "example.com").1 (by decide)⟩

end SimpleNetworkRelay
